import Mathlib

/-!
Verification development for the xbot mention-ingestion pipeline.

This file gives a shallow embedding of the repository's core modules:

* `src/twitter-known-bots.ts` — the bot-noise classifier;
* the mention fetcher `getTwitterUserIdMentions`;
* the thread resolver `resolveMessageThread`;
* the control loop in `main` (cursor merge and persistence).

Twitter identifiers are numeric strings ordered numerically, so they are
embedded as `Nat` (absent values as `Option Nat`).  External collaborators
(the remote feed, the persistence layer) are modelled as explicit inputs
and as an emitted list of effect events, so that frame conditions about
reads and writes can be stated.
-/

/-- Modelled from the spec: `maxTwitterId` from `src/twitter-utils.ts` is not
included in the sources here.  The spec describes cursors as
"monotonically-increasing identifier (platform-native, numeric-string
ordered)", so identifiers are embedded as `Nat` and `maxTwitterId` as the
maximum of two optional identifiers, an absent identifier losing to any
present one. -/
def maxTwitterId : Option Nat → Option Nat → Option Nat
  | none, none => none
  | some a, none => some a
  | none, some b => some b
  | some a, some b => some (max a b)

/-- Order on optional identifiers: `none` is below everything. -/
def optIdLe : Option Nat → Option Nat → Bool
  | none, _ => true
  | some _, none => false
  | some a, some b => decide (a ≤ b)

theorem optIdLe_refl (a : Option Nat) : optIdLe a a = true := by
  cases a <;> simp [optIdLe]

theorem optIdLe_trans {a b c : Option Nat} (h1 : optIdLe a b = true)
    (h2 : optIdLe b c = true) : optIdLe a c = true := by
  cases a <;> cases b <;> cases c <;> simp_all [optIdLe]
  all_goals omega

theorem optIdLe_maxTwitterId_left (a b : Option Nat) :
    optIdLe a (maxTwitterId a b) = true := by
  cases a <;> cases b <;> simp [optIdLe, maxTwitterId]

theorem optIdLe_maxTwitterId_right (a b : Option Nat) :
    optIdLe b (maxTwitterId a b) = true := by
  cases a <;> cases b <;> simp [optIdLe, maxTwitterId]

theorem maxTwitterId_comm (a b : Option Nat) :
    maxTwitterId a b = maxTwitterId b a := by
  cases a <;> cases b <;> simp [maxTwitterId, Nat.max_comm]

theorem maxTwitterId_eq_right {a b : Option Nat} (h : optIdLe a b = true)
    (hb : b.isSome = true) : maxTwitterId a b = b := by
  cases a <;> cases b <;> simp_all [optIdLe, maxTwitterId, Nat.max_eq_right]

/-! ## Bot-noise classifier (`src/twitter-known-bots.ts`) -/

/-- Model of JavaScript `String.prototype.toLowerCase` on a single character,
restricted to the basic latin range (Twitter usernames are ASCII). -/
def lowerChar (c : Char) : Char :=
  if 65 ≤ c.toNat ∧ c.toNat ≤ 90 then Char.ofNat (c.toNat + 32) else c

/-- Model of JavaScript `String.prototype.toLowerCase`. -/
def lowerStr (s : String) : String :=
  ⟨s.data.map lowerChar⟩

theorem toNat_ofNat_valid {n : Nat} (h : n.isValidChar) :
    (Char.ofNat n).toNat = n := by
  rw [Char.ofNat, dif_pos h]
  rfl

theorem lowerChar_idem (c : Char) : lowerChar (lowerChar c) = lowerChar c := by
  unfold lowerChar
  by_cases h : 65 ≤ c.toNat ∧ c.toNat ≤ 90
  · have hvalid : (c.toNat + 32).isValidChar := by
      left
      omega
    rw [if_pos h, if_neg]
    rw [toNat_ofNat_valid hvalid]
    omega
  · rw [if_neg h, if_neg h]

theorem lowerStr_idem (s : String) : lowerStr (lowerStr s) = lowerStr s := by
  unfold lowerStr
  cases s with
  | mk data =>
    simp only [List.map_map]
    congr 1
    induction data with
    | nil => rfl
    | cons c cs ih => simp [ih, lowerChar_idem]

/-- The curated list of known broadcaster/utility accounts, verbatim from
`src/twitter-known-bots.ts` (stored lowercased there via `.map(toLowerCase)`). -/
def twitterKnownBotNames : List String :=
  [ "threadreaderapp", "SaveToNotion", "ChatGPTBot", "AskDexa", "PingThread",
    "readwiseio", "threader", "unrollthread", "ReplyGPT", "ChatSonicAI",
    "dustyplaylist", "pikaso_me", "RemindMe_OfThis", "SaveMyVideo",
    "QuotedReplies", "poet_this", "MakeItAQuote", "colorize_bot",
    "DearAssistant", "WhatTheFare", "wayback_exe", "TayTweets",
    "deepquestionbot", "MoMARobot", "phasechase", "poem_exe", "desires_exe",
    "HundredZeros", "dscovr_epic", "MagicRealismBot", "MuseumBot",
    "TwoHeadlines", "pentametron", "earthquakebot", "_grammar_",
    "netflix_bot", "redbox_bot", "nicetipsbot", "the_ephemerides",
    "year_progress", "IFindPlanets", "emojimashupbot", "translatorbot",
    "MetaculusAlert", "hashtagify", "GooogleFactss", "Timer",
    "DownloaderBot", "QuakesToday", "Savevidbot", "Growthoid", "greatartbot",
    "Stupidcounter", "everyword", "fuckeveryword", "big_ben_clock",
    "LetKanyeFinish", "RedScareBot", "EnjoyTheFilm", "DBZNappa", "Exosaurs",
    "exoslash", "BloombrgNewsish", "AutoCharts", "HottestStartups",
    "metaphorminute", "unchartedatlas", "YesYoureRacist", "YesYoureSexist",
    "accidental575", "EarthRoverBot", "happened_today", "anagramatron",
    "pentametron", "stealthmountain", "SortingBot", "flycolony",
    "chernobylstatus", "blitz_bot_test", "unescobot", "wahlumfrageBot",
    "NeonaziWallets", "LatencyAt", "teololstoy", "trumpretruth",
    "UnrollHelper", "bot4thread" ]

/-- The known-bot set: the curated names, lowercased at construction. -/
def twitterKnownBots : List String :=
  twitterKnownBotNames.map lowerStr

def isKnownTwitterBot (username : String) : Bool :=
  twitterKnownBots.contains (lowerStr username)

/-- Model of the `/bot$/`-style suffix tests (JavaScript regex anchored at
the end of the string). -/
def strEndsWith (s suffixStr : String) : Bool :=
  suffixStr.data.isSuffixOf s.data

def isLikelyTwitterBot (username : String) : Bool :=
  let u := lowerStr username
  if isKnownTwitterBot u then true
  else if strEndsWith u "bot" then true
  else if strEndsWith u "gpt" then true
  else if strEndsWith u "status" then true
  else false

/-! ## Mention fetcher (`getTwitterUserIdMentions`) -/

/-- A remote post.  Only the fields the embedded modules read are kept:
`id`, `author_id`, `text` and `referenced_tweets` (type tag plus id). -/
structure Tweet where
  id : Nat
  authorId : Nat := 0
  text : String := ""
  referencedTweets : List (String × Nat) := []
deriving DecidableEq

structure TwitterUser where
  id : Nat
  username : String := ""
deriving DecidableEq

/-- One page of the paginated `usersIdMentions` query:
`{ data, includes: { users, tweets } }`. -/
structure Page where
  data : List Tweet := []
  includesUsers : List TwitterUser := []
  includesTweets : List Tweet := []
deriving DecidableEq

/-- Modelled from the spec: the error classes a remote call can surface
("rate-limit / auth / network / unknown"); `handleKnownTwitterErrors` and
`BotError` from `src/bot-error.ts` / `src/twitter-utils.ts` are not included
in the sources here. -/
inductive TwitterApiError
  | rateLimit
  | auth
  | network
  | other (message : String)
deriving DecidableEq

/-- Modelled from the spec: the classified error types carried by `BotError`. -/
inductive BotErrorType
  | twitterRateLimit
  | twitterAuth
  | network
  | twitterUnknown
deriving DecidableEq

/-- Modelled from the spec: `handleKnownTwitterErrors` rethrows known error
classes; anything unclassifiable becomes `twitter:unknown`. -/
def classifyTwitterError : TwitterApiError → BotErrorType
  | .rateLimit => .twitterRateLimit
  | .auth => .twitterAuth
  | .network => .network
  | .other _ => .twitterUnknown

/-- One iteration of the fetcher's outer `do`/`while` loop issues one
paginated query.  The environment supplies the pages the async iterator
yielded before either completing (`error = none`) or throwing mid-iteration
(`error = some e`). -/
structure QueryAttempt where
  pages : List Page := []
  error : Option TwitterApiError := none
deriving DecidableEq

/-- Modelled from the spec: the persistence layer ("record upsert-by-id for
posts, authors ...; cached-mention-page lookup keyed by (account, since-id)")
is external, so its operations are recorded as effect events. -/
inductive DbEffect
  | getCachedUserMentionsForUserSince (userId : Nat) (sinceMentionId : Nat)
  | upsertTweetMentionsForUserId (userId : Nat) (data : List Tweet)
  | upsertTweets (tweets : List Tweet)
  | upsertTwitterUsers (users : List TwitterUser)
deriving DecidableEq

/-- `result.users[user.id] = user` / `result.tweets[tweet.id] = tweet`:
upsert into an id-keyed record, overwriting an existing entry. -/
def upsertEntry {α : Type} (m : List (Nat × α)) (k : Nat) (v : α) :
    List (Nat × α) :=
  if m.any (fun kv => kv.1 == k) then
    m.map (fun kv => if kv.1 == k then (k, v) else kv)
  else m ++ [(k, v)]

/-- `{ ...base, ...over }`: the entries of `base` overridden by `over`. -/
def mergeEntries {α : Type} (base over : List (Nat × α)) : List (Nat × α) :=
  over.foldl (fun m kv => upsertEntry m kv.1 kv.2) base

def entryValues {α : Type} (m : List (Nat × α)) : List α :=
  m.map (·.2)

/-- The fetcher's accumulator, `types.TweetMentionFetchResult`. -/
structure TweetMentionFetchResult where
  mentions : List Tweet := []
  users : List (Nat × TwitterUser) := []
  tweets : List (Nat × Tweet) := []
  sinceMentionId : Option Nat := none
deriving DecidableEq

/-- Raise a working since-id over the ids of a page's mentions, mirroring the
`for (const mention of page.data)` loop. -/
def sinceFold (s : Option Nat) (l : List Tweet) : Option Nat :=
  l.foldl (fun s m => maxTwitterId s (some m.id)) s

/-- The body of `for await (const page of mentionsQuery)` for one page:
append `page.data` to the mentions, upsert the page into the cache unless
`noCache`, raise the since-id, and merge `includes.users` / `includes.tweets`. -/
def accumPage (noCache : Bool) (userId : Nat) (acc : TweetMentionFetchResult)
    (page : Page) : TweetMentionFetchResult × List DbEffect :=
  let step :=
    if page.data.isEmpty then (acc, ([] : List DbEffect))
    else
      ({ acc with
          mentions := acc.mentions ++ page.data
          sinceMentionId := sinceFold acc.sinceMentionId page.data },
        if noCache then []
        else [DbEffect.upsertTweetMentionsForUserId userId page.data])
  let acc1 := step.1
  let acc2 :=
    { acc1 with
        users := page.includesUsers.foldl
          (fun us (u : TwitterUser) => upsertEntry us u.id u) acc1.users }
  let acc3 :=
    { acc2 with
        tweets := page.includesTweets.foldl
          (fun ts (t : Tweet) => upsertEntry ts t.id t) acc2.tweets }
  (acc3, step.2)

/-- All pages of one query attempt, returning the updated accumulator, the
emitted effects, and `numMentionsInQuery`. -/
def runPages (noCache : Bool) (userId : Nat) (acc : TweetMentionFetchResult) :
    List Page → TweetMentionFetchResult × List DbEffect × Nat
  | [] => (acc, [], 0)
  | page :: rest =>
    let r1 := accumPage noCache userId acc page
    let r2 := runPages noCache userId r1.1 rest
    (r2.1, r1.2 ++ r2.2.1, page.data.length + r2.2.2)

/-- The mentions contributed by a list of pages, in order. -/
def pagesData (ps : List Page) : List Tweet :=
  ps.flatMap (·.data)

/-- The fetcher's outer `do { try ... catch ... } while (true)` loop.  Each
`QueryAttempt` is one iteration's environment.  A completed iteration breaks
when `numMentionsInQuery < 5 || !ctx.resolveAllMentions`; a throwing
iteration breaks with a partial success when any mentions were accumulated,
and otherwise fails with the classified error. -/
def fetchLoop (resolveAllMentions noCache : Bool) (userId : Nat)
    (acc : TweetMentionFetchResult) :
    List QueryAttempt →
      Except BotErrorType TweetMentionFetchResult × List DbEffect
  | [] => (.ok acc, [])
  | attempt :: rest =>
    let r := runPages noCache userId acc attempt.pages
    match attempt.error with
    | some err =>
      if r.1.mentions.isEmpty then (.error (classifyTwitterError err), r.2.1)
      else (.ok r.1, r.2.1)
    | none =>
      if r.2.2 < 5 || !resolveAllMentions then (.ok r.1, r.2.1)
      else
        let rec1 := fetchLoop resolveAllMentions noCache userId r.1 rest
        (rec1.1, r.2.1 ++ rec1.2)

/-- The cache-seeding prologue of `getTwitterUserIdMentions`: unless the
cache is bypassed, a non-empty cached result seeds the accumulator and
raises the working since-id via `maxTwitterId`. -/
def seedResult (sinceMentionId : Option Nat) (noCache : Bool)
    (cached : Option TweetMentionFetchResult) : TweetMentionFetchResult :=
  let result : TweetMentionFetchResult :=
    { mentions := [], users := [], tweets := [], sinceMentionId := sinceMentionId }
  if noCache then result
  else
    match cached with
    | some c =>
      if c.mentions.isEmpty then result
      else
        { mentions := result.mentions ++ c.mentions
          users := mergeEntries c.users result.users
          tweets := mergeEntries c.tweets result.tweets
          sinceMentionId := maxTwitterId result.sinceMentionId c.sinceMentionId }
    | none => result

/-- Shallow embedding of `getTwitterUserIdMentions`.  The cache contents and
the sequence of remote query attempts are inputs; the result is the returned
`TweetMentionFetchResult` (or the thrown classified error) together with the
list of persistence effects, ending — on every normal return — with the
flush `upsertTweets` / `upsertTwitterUsers`. -/
def getTwitterUserIdMentions (userId : Nat) (sinceMentionId : Option Nat)
    (noCache resolveAllMentions : Bool)
    (cached : Option TweetMentionFetchResult) (attempts : List QueryAttempt) :
    Except BotErrorType TweetMentionFetchResult × List DbEffect :=
  let readEffs : List DbEffect :=
    if noCache then []
    else [DbEffect.getCachedUserMentionsForUserSince userId
            (sinceMentionId.getD 0)]
  let acc0 := seedResult sinceMentionId noCache cached
  match fetchLoop resolveAllMentions noCache userId acc0 attempts with
  | (.ok acc, effs) =>
    (.ok acc,
      readEffs ++ effs ++
        [DbEffect.upsertTweets (entryValues acc.tweets),
         DbEffect.upsertTwitterUsers (entryValues acc.users)])
  | (.error e, effs) => (.error e, readEffs ++ effs)

/-! ## Control loop (`main`) -/

/-- The fields of `types.Context` that the control loop's cursor logic reads. -/
structure LoopContext where
  sinceMentionId : Option Nat
  dryRun : Bool
  resolveAllMentions : Bool
  debugTweetIds : List Nat := []
deriving DecidableEq

/-- The field of `types.TweetMentionBatch` the control loop's cursor logic
reads (the remaining batch fields drive the sleep/reauth mitigations, which
no claim here concerns). -/
structure TweetMentionBatch where
  sinceMentionId : Option Nat := none
deriving DecidableEq

/-- One control-loop iteration's cursor handling, from `main`:

if the batch advanced a since-id and no debug tweet ids are set, merge it
into the in-memory cursor; unless in `resolveAllMentions` mode, re-read the
persisted cursor and merge it too, then — when the cursor is set and not in
dry-run mode — write it back via `setSinceMentionId`.

`persisted` is the durable value `db.getSinceMentionId` returns at this
iteration; the second component is `some w` exactly when
`setSinceMentionId w` was invoked. -/
def stepBatch (ctx : LoopContext) (persisted : Option Nat)
    (batch : TweetMentionBatch) : LoopContext × Option Nat :=
  if batch.sinceMentionId.isSome && ctx.debugTweetIds.isEmpty then
    if !ctx.resolveAllMentions then
      match maxTwitterId (maxTwitterId ctx.sinceMentionId batch.sinceMentionId)
          persisted with
      | some v =>
        if !ctx.dryRun then ({ ctx with sinceMentionId := some v }, some v)
        else ({ ctx with sinceMentionId := some v }, none)
      | none => ({ ctx with sinceMentionId := none }, none)
    else
      ({ ctx with
          sinceMentionId := maxTwitterId ctx.sinceMentionId batch.sinceMentionId },
        none)
  else (ctx, none)

/-- The persisted cursor after a step: a write replaces it, otherwise it is
unchanged. -/
def persistAfter (persisted : Option Nat) (ev : Option Nat) : Option Nat :=
  match ev with
  | some w => some w
  | none => persisted

/-- The control loop over a sequence of batch outcomes, threading the
in-memory cursor and the durable store, and logging every value passed to
`setSinceMentionId`. -/
def runLoop (ctx : LoopContext) (persisted : Option Nat) :
    List TweetMentionBatch → LoopContext × Option Nat × List Nat
  | [] => (ctx, persisted, [])
  | b :: bs =>
    let s := stepBatch ctx persisted b
    let r := runLoop s.1 (persistAfter persisted s.2) bs
    (r.1, r.2.1, s.2.toList ++ r.2.2)

/-! ## Thread resolver (`resolveMessageThread`) -/

/-- The fields of `types.Message` the thread resolver reads. -/
structure Message where
  id : Nat
  prompt : String := ""
  promptTweetId : Nat := 0
  response : Option String := none
  parentMessageId : Option Nat := none
  error : Option String := none
deriving DecidableEq

/-- A chat-completions message, `Prompt.Msg` restricted to the two roles the
resolver emits. -/
inductive ChatMsg
  | user (content : String)
  | assistant (content : String)
deriving DecidableEq

/-- JavaScript truthiness of `m.error` (an empty string is falsy). -/
def hasError (m : Message) : Bool :=
  match m.error with
  | none => false
  | some s => !s.isEmpty

/-- `db.messages.get`: point lookup in the conversation-turn store. -/
def msgGet (store : List Message) (id : Nat) : Option Message :=
  store.find? (fun m => m.id == id)

/-- `db.tryGetTweetById` (with `force: true` the cache is bypassed; the
lookup itself is the same point query against the modelled store). -/
def tweetGet (store : List Tweet) (id : Nat) : Option Tweet :=
  store.find? (fun t => t.id == id)

/-- `tweet.referenced_tweets?.find((t) => t.type === 'replied_to')`. -/
def findRepliedTo (t : Tweet) : Option Nat :=
  (t.referencedTweets.find? (fun r => r.1 == "replied_to")).map (·.2)

/-- The resolver's first `do`/`while` loop: follow `parentMessageId`
through the store, returning the parents in traversal order together with
the last message reached (the loop's final `message` variable).  `fuel`
bounds the walk, standing in for the store's finiteness. -/
def walkParents (store : List Message) : Nat → Message → List Message × Message
  | 0, m => ([], m)
  | fuel+1, m =>
    match m.parentMessageId with
    | none => ([], m)
    | some pid =>
      match msgGet store pid with
      | none => ([], m)
      | some p =>
        let r := walkParents store fuel p
        (p :: r.1, r.2)

/-- The resolver's second loop: follow `replied_to` references through the
tweet store, pushing each resolved tweet. -/
def collectPrevTweets (store : List Tweet) :
    Nat → Option Tweet → List Tweet → List Tweet
  | _, none, acc => acc
  | 0, some _, acc => acc
  | fuel+1, some tw, acc =>
    match findRepliedTo tw with
    | none => acc
    | some rid =>
      match tweetGet store rid with
      | none => acc
      | some rt => collectPrevTweets store fuel (some rt) (acc ++ [rt])

/-- Rendering of one bot turn: a user entry for the prompt, followed by an
assistant entry for the response only when the response is truthy and the
turn is not the leaf being resolved. -/
def renderBotMessage (leafMessage m : Message) : List ChatMsg :=
  ChatMsg.user m.prompt ::
    (match m.response with
     | some r =>
       if !r.isEmpty && !(m == leafMessage) then [ChatMsg.assistant r] else []
     | none => [])

/-- Shallow embedding of `resolveMessageThread`.  The message and tweet
stores are inputs; `fuel` bounds the two backward walks. -/
def resolveMessageThread (msgStore : List Message) (tweetStore : List Tweet)
    (fuel : Nat) (message : Message)
    (resolvePrevTweetsInThread : Bool := true) : List ChatMsg :=
  let leafMessage := message
  let walk := walkParents msgStore fuel message
  let messages := message :: walk.1
  let prevTweetsInThread :=
    if resolvePrevTweetsInThread then
      collectPrevTweets tweetStore fuel
        (tweetGet tweetStore walk.2.promptTweetId) []
    else []
  let messagesR := messages.reverse
  let prevTweetsR := prevTweetsInThread.reverse
  let filtered := messagesR.filter (fun m => !hasError m || m == leafMessage)
  prevTweetsR.map (fun tw => ChatMsg.user tw.text) ++
    filtered.flatMap (renderBotMessage leafMessage)

/-! ## Lemmas and claim theorems -/

theorem stepBatch_persist_mono (ctx : LoopContext) (p : Option Nat)
    (b : TweetMentionBatch) :
    optIdLe p (persistAfter p (stepBatch ctx p b).2) = true := by
  unfold stepBatch
  split
  · split
    · split
      next v heq =>
        split
        · have h := optIdLe_maxTwitterId_right
            (maxTwitterId ctx.sinceMentionId b.sinceMentionId) p
          rw [heq] at h
          simpa [persistAfter] using h
        · simp [persistAfter, optIdLe_refl]
      next heq => simp [persistAfter, optIdLe_refl]
    · simp [persistAfter, optIdLe_refl]
  · simp [persistAfter, optIdLe_refl]

theorem stepBatch_preserves_dryRun (ctx : LoopContext) (p : Option Nat)
    (b : TweetMentionBatch) : (stepBatch ctx p b).1.dryRun = ctx.dryRun := by
  unfold stepBatch
  split
  · split
    · split
      · split <;> rfl
      · rfl
    · rfl
  · rfl

theorem runLoop_persist_mono (bs : List TweetMentionBatch) :
    ∀ (ctx : LoopContext) (p : Option Nat),
      optIdLe p (runLoop ctx p bs).2.1 = true := by
  induction bs with
  | nil => intro ctx p; simp [runLoop, optIdLe_refl]
  | cons b bs ih =>
    intro ctx p
    have h1 := stepBatch_persist_mono ctx p b
    have h2 := ih (stepBatch ctx p b).1 (persistAfter p (stepBatch ctx p b).2)
    simp only [runLoop]
    exact optIdLe_trans h1 h2

/-- Claim C1 (cursor monotonicity): whenever a control-loop iteration writes
the cursor (`setSinceMentionId` is invoked with value `w`), and the batch's
since-id is at least the in-memory cursor (the fetcher's guarantee), the
written value is exactly the maximum of the persisted value re-read just
before writing and the batch's maximum processed mention id; the written
value never regresses the persisted cursor, and across any sequence of
batches the persisted cursor never decreases. -/
theorem stepBatch_cursor_monotone (ctx : LoopContext) (persisted : Option Nat)
    (batch : TweetMentionBatch) (w : Nat) (bs : List TweetMentionBatch)
    (hb : optIdLe ctx.sinceMentionId batch.sinceMentionId = true)
    (hw : (stepBatch ctx persisted batch).2 = some w) :
    some w = maxTwitterId persisted batch.sinceMentionId ∧
    optIdLe persisted (some w) = true ∧
    optIdLe persisted (runLoop ctx persisted bs).2.1 = true := by
  refine ⟨?_, ?_, runLoop_persist_mono bs ctx persisted⟩
  · unfold stepBatch at hw
    split at hw
    next hg =>
      have hsome : batch.sinceMentionId.isSome = true :=
        ((Bool.and_eq_true _ _).mp hg).1
      have hs1 : maxTwitterId ctx.sinceMentionId batch.sinceMentionId =
          batch.sinceMentionId := maxTwitterId_eq_right hb hsome
      split at hw
      · split at hw
        next v heq =>
          split at hw
          · simp only at hw
            rw [hs1, maxTwitterId_comm] at heq
            rw [heq, hw]
          · simp at hw
        next heq => simp at hw
      · simp at hw
    next => simp at hw
  · have h := stepBatch_persist_mono ctx persisted batch
    rw [hw] at h
    simpa [persistAfter] using h

/-- Witness for C1 at a concrete iteration: in-memory cursor 3, persisted
cursor 5, batch max 7; the write is `max(5, 7) = 7`. -/
theorem stepBatch_cursor_monotone_w :
    some 7 = maxTwitterId (some 5) (some 7) ∧
    optIdLe (some 5) (some 7) = true ∧
    optIdLe (some 5)
      (runLoop ⟨some 3, false, false, []⟩ (some 5) [⟨some 7⟩]).2.1 = true :=
  stepBatch_cursor_monotone ⟨some 3, false, false, []⟩ (some 5) ⟨some 7⟩ 7
    [⟨some 7⟩] (by decide) (by decide)

theorem stepBatch_dryRun (ctx : LoopContext) (p : Option Nat)
    (b : TweetMentionBatch) (hd : ctx.dryRun = true) :
    (stepBatch ctx p b).2 = none := by
  unfold stepBatch
  split
  · split
    · split
      next v heq =>
        split
        next hdr => rw [hd] at hdr; simp at hdr
        next => rfl
      next heq => rfl
    · rfl
  · rfl

/-- Claim C9 (dry-run frame condition): with `dryRun` set, no control-loop
iteration invokes `setSinceMentionId` (the write log is empty) and the
persisted cursor is left unchanged, for any sequence of batches. -/
theorem runLoop_dryRun_no_writes (ctx : LoopContext) (persisted : Option Nat)
    (bs : List TweetMentionBatch) (hd : ctx.dryRun = true) :
    (runLoop ctx persisted bs).2.2 = [] ∧
    (runLoop ctx persisted bs).2.1 = persisted := by
  induction bs generalizing ctx persisted with
  | nil => exact ⟨rfl, rfl⟩
  | cons b bs ih =>
    have hs := stepBatch_dryRun ctx persisted b hd
    have hd1 : (stepBatch ctx persisted b).1.dryRun = true := by
      rw [stepBatch_preserves_dryRun, hd]
    have hrec := ih (stepBatch ctx persisted b).1 persisted hd1
    simp only [runLoop, hs, persistAfter]
    simpa using hrec

/-- Witness for C9: a dry-run loop over one cursor-advancing batch writes
nothing and leaves the persisted cursor at 2. -/
theorem runLoop_dryRun_no_writes_w :
    (runLoop ⟨some 1, true, false, []⟩ (some 2) [⟨some 9⟩]).2.2 = [] ∧
    (runLoop ⟨some 1, true, false, []⟩ (some 2) [⟨some 9⟩]).2.1 = some 2 :=
  runLoop_dryRun_no_writes ⟨some 1, true, false, []⟩ (some 2) [⟨some 9⟩] rfl

/-- Claim C8 (bot-noise classifier): `isLikelyTwitterBot` returns true
exactly when the lowercased username is in the curated known-bot set or ends
with "bot", "gpt" or "status"; the check is case-insensitive, and in
particular `"foobot"` is matched by the suffix heuristic despite being
absent from the curated set, while `"threadreaderapp"` is matched by set
membership. -/
theorem isLikelyTwitterBot_spec :
    (∀ u : String,
      isLikelyTwitterBot u =
        (twitterKnownBots.contains (lowerStr u) || strEndsWith (lowerStr u) "bot" ||
          strEndsWith (lowerStr u) "gpt" || strEndsWith (lowerStr u) "status")) ∧
    (∀ u : String, isLikelyTwitterBot (lowerStr u) = isLikelyTwitterBot u) ∧
    isLikelyTwitterBot "foobot" = true ∧
    twitterKnownBots.contains (lowerStr "foobot") = false ∧
    isLikelyTwitterBot "threadreaderapp" = true := by
  have hmain : ∀ u : String,
      isLikelyTwitterBot u =
        (twitterKnownBots.contains (lowerStr u) || strEndsWith (lowerStr u) "bot" ||
          strEndsWith (lowerStr u) "gpt" || strEndsWith (lowerStr u) "status") := by
    intro u
    simp only [isLikelyTwitterBot, isKnownTwitterBot, lowerStr_idem]
    cases h1 : twitterKnownBots.contains (lowerStr u) <;>
      cases h2 : strEndsWith (lowerStr u) "bot" <;>
      cases h3 : strEndsWith (lowerStr u) "gpt" <;>
      cases h4 : strEndsWith (lowerStr u) "status" <;>
      simp
  refine ⟨hmain, ?_, by decide, by decide, by decide⟩
  intro u
  rw [hmain, hmain, lowerStr_idem]

theorem walkParents_of_no_parent {m : Message} (store : List Message)
    (hp : m.parentMessageId = none) :
    ∀ fuel, walkParents store fuel m = ([], m) := by
  intro fuel
  cases fuel with
  | zero => rfl
  | succ f => simp [walkParents, hp]

theorem walkParents_step {m p : Message} {pid : Nat} (store : List Message)
    (fuel : Nat) (hm : m.parentMessageId = some pid)
    (hg : msgGet store pid = some p) :
    walkParents store (fuel+1) m =
      (p :: (walkParents store fuel p).1, (walkParents store fuel p).2) := by
  simp [walkParents, hm, hg]

theorem collectPrevTweets_noneStart (ts : List Tweet) (fuel : Nat)
    (acc : List Tweet) : collectPrevTweets ts fuel none acc = acc := by
  cases fuel <;> rfl

theorem collectPrevTweets_step {tw rt : Tweet} {rid : Nat} (ts : List Tweet)
    (fuel : Nat) (acc : List Tweet) (hr : findRepliedTo tw = some rid)
    (hg : tweetGet ts rid = some rt) :
    collectPrevTweets ts (fuel+1) (some tw) acc =
      collectPrevTweets ts fuel (some rt) (acc ++ [rt]) := by
  simp [collectPrevTweets, hr, hg]

theorem collectPrevTweets_stop {tw : Tweet} (ts : List Tweet) (fuel : Nat)
    (acc : List Tweet) (hr : findRepliedTo tw = none) :
    collectPrevTweets ts fuel (some tw) acc = acc := by
  cases fuel with
  | zero => rfl
  | succ f => simp [collectPrevTweets, hr]

/-- Claim C7 (no-parent edge case): a leaf turn without `parentMessageId`
whose originating tweet cannot be resolved — or with external-thread
inclusion disabled — resolves to the single-element context of its own
prompt as a user entry. -/
theorem resolveMessageThread_no_parent (msgStore : List Message)
    (tweetStore : List Tweet) (fuel : Nat) (L : Message)
    (hp : L.parentMessageId = none)
    (ht : ∀ tw, tweetGet tweetStore L.promptTweetId = some tw →
      findRepliedTo tw = none) :
    resolveMessageThread msgStore tweetStore fuel L true =
      [ChatMsg.user L.prompt] ∧
    resolveMessageThread msgStore tweetStore fuel L false =
      [ChatMsg.user L.prompt] := by
  have hwalk := walkParents_of_no_parent msgStore hp fuel
  have hprev : collectPrevTweets tweetStore fuel
      (tweetGet tweetStore L.promptTweetId) [] = [] := by
    cases hlook : tweetGet tweetStore L.promptTweetId with
    | none => exact collectPrevTweets_noneStart tweetStore fuel []
    | some tw => exact collectPrevTweets_stop tweetStore fuel [] (ht tw hlook)
  constructor <;>
    cases hr : L.response <;>
      simp [resolveMessageThread, hwalk, hprev, collectPrevTweets_noneStart,
        renderBotMessage, hr]

/-- Witness for C7: a parentless leaf with an unresolvable prompt tweet. -/
theorem resolveMessageThread_no_parent_w :
    resolveMessageThread [] []
        3 { id := 1, prompt := "p", promptTweetId := 9, response := some "r" }
        true =
      [ChatMsg.user "p"] ∧
    resolveMessageThread [] []
        3 { id := 1, prompt := "p", promptTweetId := 9, response := some "r" }
        false =
      [ChatMsg.user "p"] :=
  resolveMessageThread_no_parent [] [] 3
    { id := 1, prompt := "p", promptTweetId := 9, response := some "r" }
    rfl (fun _ h => Option.noConfusion h)

theorem beq_message_false_of_id_ne {a b : Message} (h : a.id ≠ b.id) :
    (a == b) = false := by
  rw [beq_eq_false_iff_ne]
  intro he
  exact h (congrArg Message.id he)

/-- Claim C6 (error-turn exclusion): a non-leaf turn carrying an error is
dropped from the rendered context, while the same kind of turn, when it is
itself the leaf being resolved, is retained. -/
theorem resolveMessageThread_error_turns (msgStore : List Message)
    (tweetStore : List Tweet) (f : Nat) (L P M : Message)
    (hLp : L.parentMessageId = some P.id)
    (hgP : msgGet msgStore P.id = some P)
    (hPp : P.parentMessageId = none)
    (heP : hasError P = true) (heL : hasError L = false)
    (hMp : M.parentMessageId = none) (heM : hasError M = true) :
    resolveMessageThread msgStore tweetStore (f+1) L false =
      [ChatMsg.user L.prompt] ∧
    resolveMessageThread msgStore tweetStore (f+1) M false =
      [ChatMsg.user M.prompt] := by
  have hPL : (P == L) = false := by
    rw [beq_eq_false_iff_ne]
    intro he
    rw [he, heL] at heP
    exact Bool.false_ne_true heP
  have hwP := walkParents_of_no_parent msgStore hPp f
  have hw : walkParents msgStore (f+1) L = ([P], P) := by
    rw [walkParents_step msgStore f hLp hgP, hwP]
  have hwM := walkParents_of_no_parent msgStore hMp (f+1)
  constructor
  · cases hr : L.response <;>
      simp [resolveMessageThread, hw, renderBotMessage, heP, heL, hPL, hr]
  · cases hr : M.response <;>
      simp [resolveMessageThread, hwM, renderBotMessage, heM, hr]

/-- Witness for C6: parent turn 1 carries error "boom" and is excluded from
the context of leaf 2; a leaf turn 3 carrying the same kind of error is
retained. -/
theorem resolveMessageThread_error_turns_w :
    resolveMessageThread
        [{ id := 1, prompt := "pP", error := some "boom" }] [] 4
        { id := 2, prompt := "pL", parentMessageId := some 1 } false =
      [ChatMsg.user "pL"] ∧
    resolveMessageThread
        [{ id := 1, prompt := "pP", error := some "boom" }] [] 4
        { id := 3, prompt := "pM", error := some "boom" } false =
      [ChatMsg.user "pM"] :=
  resolveMessageThread_error_turns
    [{ id := 1, prompt := "pP", error := some "boom" }] [] 3
    { id := 2, prompt := "pL", parentMessageId := some 1 }
    { id := 1, prompt := "pP", error := some "boom" }
    { id := 3, prompt := "pM", error := some "boom" }
    rfl rfl rfl rfl rfl rfl rfl

/-- Claim C5 (thread ordering): for turns T1 (root) → T2 → T3 (leaf) linked
by `parentMessageId`, the resolved thread is oldest-first — the remote
pre-thread post precedes the bot turns, which render as
`[T1, T2, T3]` — and the leaf's own response (whatever `T3.response` is)
is never emitted as an assistant entry. -/
theorem resolveMessageThread_chain_order (msgStore : List Message)
    (tweetStore : List Tweet) (f : Nat) (T1 T2 T3 : Message)
    (tw0 tw1 : Tweet) (r1 r2 : String)
    (h3p : T3.parentMessageId = some T2.id)
    (hg2 : msgGet msgStore T2.id = some T2)
    (h2p : T2.parentMessageId = some T1.id)
    (hg1 : msgGet msgStore T1.id = some T1)
    (h1p : T1.parentMessageId = none)
    (htw1 : tweetGet tweetStore T1.promptTweetId = some tw1)
    (href1 : findRepliedTo tw1 = some tw0.id)
    (hgtw0 : tweetGet tweetStore tw0.id = some tw0)
    (href0 : findRepliedTo tw0 = none)
    (he1 : hasError T1 = false) (he2 : hasError T2 = false)
    (he3 : hasError T3 = false)
    (hne13 : T1.id ≠ T3.id) (hne23 : T2.id ≠ T3.id)
    (hr1 : T1.response = some r1) (hr1e : r1.isEmpty = false)
    (hr2 : T2.response = some r2) (hr2e : r2.isEmpty = false) :
    resolveMessageThread msgStore tweetStore (f+1+1) T3 true =
      [ChatMsg.user tw0.text,
       ChatMsg.user T1.prompt, ChatMsg.assistant r1,
       ChatMsg.user T2.prompt, ChatMsg.assistant r2,
       ChatMsg.user T3.prompt] := by
  have h13 : (T1 == T3) = false := beq_message_false_of_id_ne hne13
  have h23 : (T2 == T3) = false := beq_message_false_of_id_ne hne23
  have hw : walkParents msgStore (f+1+1) T3 = ([T2, T1], T1) := by
    rw [walkParents_step msgStore (f+1) h3p hg2,
      walkParents_step msgStore f h2p hg1,
      walkParents_of_no_parent msgStore h1p f]
  have hprev : collectPrevTweets tweetStore (f+1+1) (some tw1) [] = [tw0] := by
    rw [collectPrevTweets_step tweetStore (f+1) [] href1 hgtw0,
      List.nil_append,
      collectPrevTweets_stop tweetStore (f+1) [tw0] href0]
  cases hr3 : T3.response <;>
    simp [resolveMessageThread, hw, htw1, hprev, renderBotMessage,
      he1, he2, he3, h13, h23, hr1, hr1e, hr2, hr2e, hr3]

/-- Witness for C5 at a concrete three-turn thread with one remote
pre-thread tweet. -/
theorem resolveMessageThread_chain_order_w :
    resolveMessageThread
        [{ id := 1, prompt := "p1", promptTweetId := 101, response := some "r1" },
         { id := 2, prompt := "p2", promptTweetId := 102, response := some "r2",
           parentMessageId := some 1 },
         { id := 3, prompt := "p3", promptTweetId := 103, response := some "r3",
           parentMessageId := some 2 }]
        [{ id := 100, text := "t0" },
         { id := 101, text := "t1", referencedTweets := [("replied_to", 100)] }]
        2
        { id := 3, prompt := "p3", promptTweetId := 103, response := some "r3",
          parentMessageId := some 2 }
        true =
      [ChatMsg.user "t0",
       ChatMsg.user "p1", ChatMsg.assistant "r1",
       ChatMsg.user "p2", ChatMsg.assistant "r2",
       ChatMsg.user "p3"] :=
  resolveMessageThread_chain_order
    [{ id := 1, prompt := "p1", promptTweetId := 101, response := some "r1" },
     { id := 2, prompt := "p2", promptTweetId := 102, response := some "r2",
       parentMessageId := some 1 },
     { id := 3, prompt := "p3", promptTweetId := 103, response := some "r3",
       parentMessageId := some 2 }]
    [{ id := 100, text := "t0" },
     { id := 101, text := "t1", referencedTweets := [("replied_to", 100)] }]
    0
    { id := 1, prompt := "p1", promptTweetId := 101, response := some "r1" }
    { id := 2, prompt := "p2", promptTweetId := 102, response := some "r2",
      parentMessageId := some 1 }
    { id := 3, prompt := "p3", promptTweetId := 103, response := some "r3",
      parentMessageId := some 2 }
    { id := 100, text := "t0" }
    { id := 101, text := "t1", referencedTweets := [("replied_to", 100)] }
    "r1" "r2"
    rfl rfl rfl rfl rfl rfl rfl rfl rfl rfl rfl rfl
    (by decide) (by decide) rfl rfl rfl rfl

theorem sinceFold_append (s : Option Nat) (a b : List Tweet) :
    sinceFold s (a ++ b) = sinceFold (sinceFold s a) b := by
  simp [sinceFold, List.foldl_append]

theorem sinceFold_le (l : List Tweet) :
    ∀ s, optIdLe s (sinceFold s l) = true := by
  induction l with
  | nil => intro s; exact optIdLe_refl s
  | cons m l ih =>
    intro s
    have h1 := optIdLe_maxTwitterId_left s (some m.id)
    have h2 := ih (maxTwitterId s (some m.id))
    exact optIdLe_trans h1 (by simpa [sinceFold] using h2)

theorem pagesData_cons (p : Page) (ps : List Page) :
    pagesData (p :: ps) = p.data ++ pagesData ps := by
  simp [pagesData]

theorem accumPage_spec (nc : Bool) (uid : Nat)
    (acc : TweetMentionFetchResult) (p : Page) :
    (accumPage nc uid acc p).1.mentions = acc.mentions ++ p.data ∧
    (accumPage nc uid acc p).1.sinceMentionId =
      sinceFold acc.sinceMentionId p.data := by
  unfold accumPage
  by_cases h : p.data.isEmpty
  · have hnil : p.data = [] := by simpa [List.isEmpty_iff] using h
    simp [h, hnil, sinceFold]
  · simp [h]

theorem accumPage_effects_noCache (uid : Nat) (acc : TweetMentionFetchResult)
    (p : Page) : (accumPage true uid acc p).2 = [] := by
  unfold accumPage
  by_cases h : p.data.isEmpty <;> simp [h]

theorem runPages_spec (nc : Bool) (uid : Nat) (ps : List Page) :
    ∀ acc : TweetMentionFetchResult,
      (runPages nc uid acc ps).1.mentions = acc.mentions ++ pagesData ps ∧
      (runPages nc uid acc ps).1.sinceMentionId =
        sinceFold acc.sinceMentionId (pagesData ps) := by
  induction ps with
  | nil => intro acc; simp [runPages, pagesData, sinceFold]
  | cons p ps ih =>
    intro acc
    have ha := accumPage_spec nc uid acc p
    have hr := ih (accumPage nc uid acc p).1
    constructor
    · simp only [runPages]
      rw [hr.1, ha.1, pagesData_cons, List.append_assoc]
    · simp only [runPages]
      rw [hr.2, ha.2, pagesData_cons, sinceFold_append]

theorem runPages_effects_noCache (uid : Nat) (ps : List Page) :
    ∀ acc : TweetMentionFetchResult, (runPages true uid acc ps).2.1 = [] := by
  induction ps with
  | nil => intro acc; rfl
  | cons p ps ih =>
    intro acc
    simp only [runPages]
    rw [accumPage_effects_noCache, ih]
    rfl

theorem fetchLoop_ok_spec (ra nc : Bool) (uid : Nat)
    (attempts : List QueryAttempt) :
    ∀ (acc acc' : TweetMentionFetchResult),
      (fetchLoop ra nc uid acc attempts).1 = .ok acc' →
      ∃ d, acc'.mentions = acc.mentions ++ d ∧
        acc'.sinceMentionId = sinceFold acc.sinceMentionId d := by
  induction attempts with
  | nil =>
    intro acc acc' h
    simp only [fetchLoop] at h
    cases h
    exact ⟨[], by simp [sinceFold]⟩
  | cons a rest ih =>
    intro acc acc' h
    simp only [fetchLoop] at h
    split at h
    next err heq =>
      split at h
      · simp at h
      · simp at h
        have hspec := runPages_spec nc uid a.pages acc
        exact ⟨pagesData a.pages, by rw [← h]; exact hspec.1,
          by rw [← h]; exact hspec.2⟩
    next heq =>
      split at h
      · simp at h
        have hspec := runPages_spec nc uid a.pages acc
        exact ⟨pagesData a.pages, by rw [← h]; exact hspec.1,
          by rw [← h]; exact hspec.2⟩
      · simp only at h
        obtain ⟨d, hd1, hd2⟩ := ih (runPages nc uid acc a.pages).1 acc' h
        have hspec := runPages_spec nc uid a.pages acc
        refine ⟨pagesData a.pages ++ d, ?_, ?_⟩
        · rw [hd1, hspec.1, List.append_assoc]
        · rw [hd2, hspec.2, sinceFold_append]

theorem fetchLoop_effects_noCache (ra : Bool) (uid : Nat)
    (attempts : List QueryAttempt) :
    ∀ acc : TweetMentionFetchResult,
      (fetchLoop ra true uid acc attempts).2 = [] := by
  induction attempts with
  | nil => intro acc; rfl
  | cons a rest ih =>
    intro acc
    simp only [fetchLoop]
    split
    next err heq =>
      split <;> simp [runPages_effects_noCache]
    next heq =>
      split
      · simp [runPages_effects_noCache]
      · simp [runPages_effects_noCache, ih]

theorem seedResult_since_ge (sinceId : Option Nat) (nc : Bool)
    (cached : Option TweetMentionFetchResult) :
    optIdLe sinceId (seedResult sinceId nc cached).sinceMentionId = true := by
  unfold seedResult
  split
  · exact optIdLe_refl _
  · cases cached with
    | none => exact optIdLe_refl _
    | some c =>
      by_cases hc : c.mentions.isEmpty
      · simp only [hc, if_pos]
        exact optIdLe_refl _
      · simp only [hc, if_neg, Bool.false_eq_true, not_false_iff]
        exact optIdLe_maxTwitterId_left _ _

theorem getTwitterUserIdMentions_fst (uid : Nat) (sinceId : Option Nat)
    (nc ra : Bool) (cached : Option TweetMentionFetchResult)
    (attempts : List QueryAttempt) :
    (getTwitterUserIdMentions uid sinceId nc ra cached attempts).1 =
      (fetchLoop ra nc uid (seedResult sinceId nc cached) attempts).1 := by
  unfold getTwitterUserIdMentions
  rcases hfl : fetchLoop ra nc uid (seedResult sinceId nc cached) attempts
    with ⟨res, effs⟩
  cases res <;> simp [hfl]

/-- Claim C2 (amended — returned since-id): whenever
`getTwitterUserIdMentions` returns normally, the returned `sinceMentionId`
is ≥ the input since-id, the returned mentions are the cache-seeded
mentions followed by the live-fetched mentions, and the returned
`sinceMentionId` is the running `maxTwitterId` of the seeded since-id
(input merged with the cache's recorded cursor) over the ids of the
live-fetched mentions — not, in general, the maximum id among the returned
posts themselves. -/
theorem getTwitterUserIdMentions_sinceId_spec (uid : Nat)
    (sinceId : Option Nat) (nc ra : Bool)
    (cached : Option TweetMentionFetchResult) (attempts : List QueryAttempt)
    (acc : TweetMentionFetchResult)
    (h : (getTwitterUserIdMentions uid sinceId nc ra cached attempts).1 =
      .ok acc) :
    optIdLe sinceId acc.sinceMentionId = true ∧
    ∃ live, acc.mentions = (seedResult sinceId nc cached).mentions ++ live ∧
      acc.sinceMentionId =
        sinceFold (seedResult sinceId nc cached).sinceMentionId live := by
  rw [getTwitterUserIdMentions_fst] at h
  obtain ⟨live, h1, h2⟩ :=
    fetchLoop_ok_spec ra nc uid attempts (seedResult sinceId nc cached) acc h
  refine ⟨?_, live, h1, h2⟩
  rw [h2]
  exact optIdLe_trans (seedResult_since_ge sinceId nc cached)
    (sinceFold_le live (seedResult sinceId nc cached).sinceMentionId)

/-- Witness for C2 (amended) with a single live page containing mention 7. -/
theorem getTwitterUserIdMentions_sinceId_spec_w :
    optIdLe none
      (({ mentions := [{ id := 7 }], sinceMentionId := some 7 } :
        TweetMentionFetchResult)).sinceMentionId = true :=
  (getTwitterUserIdMentions_sinceId_spec 1 none true false none
    [{ pages := [{ data := [{ id := 7 }] }] }]
    { mentions := [{ id := 7 }], sinceMentionId := some 7 } rfl).1

/-- Counterexample to C2 as stated: with input since-id 10 and a single
returned mention with id 5, the returned `sinceMentionId` is 10, which is
not the maximum identifier among the returned posts (that maximum is 5). -/
theorem getTwitterUserIdMentions_sinceId_cex :
    (getTwitterUserIdMentions 1 (some 10) true false none
        [{ pages := [{ data := [{ id := 5 }] }] }]).1 =
      .ok { mentions := [{ id := 5 }], sinceMentionId := some 10 } ∧
    ((some 10 : Option Nat) ≠ some 5) :=
  ⟨rfl, by decide⟩

/-- Claim C3 (partial fetch failure): when a query attempt throws after
yielding pages `ps`, the fetcher returns normally with exactly the mentions
accumulated so far (cache seed plus the pages preceding the error) and a
since-id folded over only those, provided any mention was accumulated;
with nothing accumulated it fails with the classified error — it never
fabricates an empty success out of an error. -/
theorem getTwitterUserIdMentions_partial_failure (uid : Nat)
    (sinceId : Option Nat) (nc ra : Bool)
    (cached : Option TweetMentionFetchResult) (ps : List Page)
    (err : TwitterApiError) (rest : List QueryAttempt) :
    ((runPages nc uid (seedResult sinceId nc cached) ps).1.mentions.isEmpty
        = false →
      (getTwitterUserIdMentions uid sinceId nc ra cached
          ({ pages := ps, error := some err } :: rest)).1 =
        .ok (runPages nc uid (seedResult sinceId nc cached) ps).1 ∧
      (runPages nc uid (seedResult sinceId nc cached) ps).1.mentions =
        (seedResult sinceId nc cached).mentions ++ pagesData ps ∧
      (runPages nc uid (seedResult sinceId nc cached) ps).1.sinceMentionId =
        sinceFold (seedResult sinceId nc cached).sinceMentionId
          (pagesData ps)) ∧
    ((runPages nc uid (seedResult sinceId nc cached) ps).1.mentions.isEmpty
        = true →
      (getTwitterUserIdMentions uid sinceId nc ra cached
          ({ pages := ps, error := some err } :: rest)).1 =
        .error (classifyTwitterError err)) := by
  have hspec := runPages_spec nc uid ps (seedResult sinceId nc cached)
  rw [getTwitterUserIdMentions_fst]
  constructor
  · intro hne
    simp only [fetchLoop]
    exact ⟨by simp [hne], hspec.1, hspec.2⟩
  · intro hemp
    simp only [fetchLoop]
    simp [hemp]

/-- Witness for C3: an attempt that yields mention 7 and then throws a
rate-limit error produces a partial success containing exactly mention 7. -/
theorem getTwitterUserIdMentions_partial_failure_w :
    (getTwitterUserIdMentions 1 none true false none
        [{ pages := [{ data := [{ id := 7 }] }],
           error := some TwitterApiError.rateLimit }]).1 =
      .ok (runPages true 1 (seedResult none true none)
        [{ data := [{ id := 7 }] }]).1 ∧
    (runPages true 1 (seedResult none true none)
        [{ data := [{ id := 7 }] }]).1.mentions =
      (seedResult none true none).mentions ++
        pagesData [{ data := [{ id := 7 }] }] ∧
    (runPages true 1 (seedResult none true none)
        [{ data := [{ id := 7 }] }]).1.sinceMentionId =
      sinceFold (seedResult none true none).sinceMentionId
        (pagesData [{ data := [{ id := 7 }] }]) :=
  (getTwitterUserIdMentions_partial_failure 1 none true false none
    [{ data := [{ id := 7 }] }] TwitterApiError.rateLimit []).1 rfl

/-- Claim C4 (amended — loop stop policy): with `resolveAllMentions` unset,
the fetcher's outer loop always stops after the first completed paginated
fetch, regardless of how many new mentions it yielded; with
`resolveAllMentions` set it stops exactly when a fetch yields fewer than 5
new mentions and otherwise continues with a further fetch. -/
theorem fetchLoop_stop_policy (nc : Bool) (uid : Nat)
    (acc : TweetMentionFetchResult) (a : QueryAttempt)
    (rest : List QueryAttempt) (ha : a.error = none) :
    fetchLoop false nc uid acc (a :: rest) = fetchLoop false nc uid acc [a] ∧
    ((runPages nc uid acc a.pages).2.2 < 5 →
      fetchLoop true nc uid acc (a :: rest) = fetchLoop true nc uid acc [a]) ∧
    (¬ (runPages nc uid acc a.pages).2.2 < 5 →
      fetchLoop true nc uid acc (a :: rest) =
        ((fetchLoop true nc uid (runPages nc uid acc a.pages).1 rest).1,
          (runPages nc uid acc a.pages).2.1 ++
            (fetchLoop true nc uid (runPages nc uid acc a.pages).1 rest).2)) := by
  refine ⟨?_, ?_, ?_⟩
  · simp [fetchLoop, ha]
  · intro hlt
    simp [fetchLoop, ha, hlt]
  · intro hlt
    simp [fetchLoop, ha, hlt]

/-- Witness for C4 (amended): in non-exhaustive mode a pending second
attempt is never issued, even though the first fetch yielded 5 mentions. -/
theorem fetchLoop_stop_policy_w :
    fetchLoop false true 9
        ({} : TweetMentionFetchResult)
        ({ pages := [{ data := [{ id := 1 }, { id := 2 }, { id := 3 },
            { id := 4 }, { id := 5 }] }] } ::
          [{ pages := [{ data := [{ id := 6 }] }] }]) =
      fetchLoop false true 9 ({} : TweetMentionFetchResult)
        [{ pages := [{ data := [{ id := 1 }, { id := 2 }, { id := 3 },
            { id := 4 }, { id := 5 }] }] }] :=
  (fetchLoop_stop_policy true 9 ({} : TweetMentionFetchResult)
    { pages := [{ data := [{ id := 1 }, { id := 2 }, { id := 3 },
        { id := 4 }, { id := 5 }] }] }
    [{ pages := [{ data := [{ id := 6 }] }] }] rfl).1

/-- Counterexample to C4 as stated: with `resolveAllMentions` unset, a
first fetch yielding 5 new mentions does not lead to a further fetch — the
pending page with mention 6 is never retrieved, so the result holds exactly
mentions 1–5. -/
theorem fetchLoop_nonexhaustive_stops_cex :
    (getTwitterUserIdMentions 9 none true false none
        [{ pages := [{ data := [{ id := 1 }, { id := 2 }, { id := 3 },
            { id := 4 }, { id := 5 }] }] },
         { pages := [{ data := [{ id := 6 }] }] }]).1 =
      .ok { mentions := [{ id := 1 }, { id := 2 }, { id := 3 }, { id := 4 },
              { id := 5 }],
            sinceMentionId := some 5 } ∧
    (({ id := 6 } : Tweet) ∉
      ([{ id := 1 }, { id := 2 }, { id := 3 }, { id := 4 }, { id := 5 }] :
        List Tweet)) :=
  ⟨rfl, by decide⟩

/-- Claim C10 (no-cache frame condition): with `noCache` set the fetcher
performs no cached-mention-store read and no per-page cache upsert — its
only persistence effects are the final flush of observed tweets and users,
which still happens on every normal return (including a partial success
after a mid-fetch error); an erroring call performs no persistence effect
at all. -/
theorem getTwitterUserIdMentions_noCache_frame (uid : Nat)
    (sinceId : Option Nat) (ra : Bool)
    (cached : Option TweetMentionFetchResult)
    (attempts : List QueryAttempt) :
    (∀ acc : TweetMentionFetchResult,
      (getTwitterUserIdMentions uid sinceId true ra cached attempts).1 =
          .ok acc →
      (getTwitterUserIdMentions uid sinceId true ra cached attempts).2 =
        [DbEffect.upsertTweets (entryValues acc.tweets),
         DbEffect.upsertTwitterUsers (entryValues acc.users)]) ∧
    (∀ e, (getTwitterUserIdMentions uid sinceId true ra cached attempts).1 =
          .error e →
      (getTwitterUserIdMentions uid sinceId true ra cached attempts).2 =
        []) := by
  have heff := fetchLoop_effects_noCache ra uid attempts
    (seedResult sinceId true cached)
  rcases hfl : fetchLoop ra true uid (seedResult sinceId true cached) attempts
    with ⟨res, effs⟩
  have heffs : effs = [] := by rw [hfl] at heff; exact heff
  subst heffs
  constructor
  · intro acc hacc
    cases res with
    | ok a =>
      rw [getTwitterUserIdMentions_fst, hfl] at hacc
      simp at hacc
      simp [getTwitterUserIdMentions, hfl, hacc]
    | error e =>
      rw [getTwitterUserIdMentions_fst, hfl] at hacc
      simp at hacc
  · intro e he
    cases res with
    | ok a =>
      rw [getTwitterUserIdMentions_fst, hfl] at he
      simp at he
    | error e2 =>
      simp [getTwitterUserIdMentions, hfl]

/-- Witness for C10: a no-cache fetch whose only attempt yields mention 7
(with one referenced tweet and one user) and then throws: the partial
success still flushes the observed tweets and users, and nothing else. -/
theorem getTwitterUserIdMentions_noCache_frame_w :
    (getTwitterUserIdMentions 1 none true false none
        [{ pages := [{ data := [{ id := 7 }],
                       includesUsers := [{ id := 8 }],
                       includesTweets := [{ id := 4 }] }],
           error := some TwitterApiError.network }]).2 =
      [DbEffect.upsertTweets (entryValues [(4, ({ id := 4 } : Tweet))]),
       DbEffect.upsertTwitterUsers
         (entryValues [(8, ({ id := 8 } : TwitterUser))])] :=
  (getTwitterUserIdMentions_noCache_frame 1 none false none
    [{ pages := [{ data := [{ id := 7 }],
                   includesUsers := [{ id := 8 }],
                   includesTweets := [{ id := 4 }] }],
       error := some TwitterApiError.network }]).1
    { mentions := [{ id := 7 }], users := [(8, { id := 8 })],
      tweets := [(4, { id := 4 })], sinceMentionId := some 7 }
    rfl
